import Mathlib

/-!
Shallow embedding of the dependency-injection core of `tabris-decorators`:
the rich `Injector` (addHandler / reset / resolve / create, with
prototype-chain registration, exact-prototype lookup and primitive
unboxing) and the older `InjectionManager` (type-keyed single-handler
registry with `used` flags guarding teardown).

JavaScript values are modelled by the inductive `JSVal`; primitive wrapper
objects (`new Number(5)` etc.) are the `boxed` constructor, whose
`valueOf` is the standard primitive-value conversion.  A constructor
function is modelled by its identity data (`JSClass`: name and the
prototype chain of `type.prototype` up to but excluding
`Object.prototype`); classes that are instantiated by `create`
additionally carry declared arity, `@inject` parameter metadata and a
constructor body (`CreatableClass`).  Thrown exceptions are
`Except.error` carrying the message.
-/

namespace TabrisDI

/-- JavaScript primitive values relevant to injection: numbers, strings,
booleans. -/
inductive Prim where
  | num (n : Int)
  | str (s : String)
  | bool (b : Bool)
deriving DecidableEq

/-- JavaScript runtime values: `null`, `undefined`, primitives, boxed
primitive wrapper objects, plain objects (by identity), and instances
constructed by `create` (recording the constructed type name and the
argument list the constructor received as its fields). -/
inductive JSVal where
  | null
  | undef
  | prim (p : Prim)
  | boxed (p : Prim)
  | obj (id : Nat)
  | inst (typeName : String) (fields : List JSVal)

/-- The test `value !== null && value !== undefined`, negated: `true`
exactly on `null` and `undefined`.  This is the "no value, defer to the
next handler" sentinel check used throughout `resolve`. -/
def isEmptyVal : JSVal → Bool
  | JSVal.null => true
  | JSVal.undef => true
  | _ => false

/-- The standard `valueOf` conversion: a boxed primitive wrapper yields
its primitive; every other value yields itself (as
`Object.prototype.valueOf` does). -/
def JSVal.valueOf : JSVal → JSVal
  | JSVal.boxed p => JSVal.prim p
  | v => v

/-- A constructor function's identity data: its `name` and the prototype
chain of `type.prototype`, listed from `type.prototype` upward, excluding
the terminal `Object.prototype`.  Prototype objects are identified by
natural numbers.  A class `Derived extends Base` has
`protoChain = d :: Base.protoChain`. -/
structure JSClass where
  name : String
  protoChain : List Nat
deriving DecidableEq

/-- The global `Number` constructor (reserved prototype identity 0). -/
def NumberType : JSClass := ⟨"Number", [0]⟩

/-- The global `String` constructor (reserved prototype identity 1). -/
def StringType : JSClass := ⟨"String", [1]⟩

/-- The global `Boolean` constructor (reserved prototype identity 2). -/
def BooleanType : JSClass := ⟨"Boolean", [2]⟩

/-- The `Injection` request record of the rich Injector: target type,
target instance (by object identity), the `@inject('x')` string literal,
property name, constructor parameter index, and the owning injector
(injector instances are identified by natural numbers). -/
structure Injection where
  type : Option JSClass
  instanceId : Option Nat
  param : Option String
  name : Option String
  index : Option Nat
  injector : Nat
deriving DecidableEq

/-- An injection handler after registration: `addHandler` wraps a bare
function into `{handleInjection: handler}`, so both forms collapse to one
function from the injection request to a value (`null`/`undef` signal
"no value, try the next handler").  The `injector` second argument of
`handleInjection` is dropped: handlers close over what they need. -/
abbrev HandlerObj := Injection → JSVal

/-- The rich Injector's state: its identity and the `HandlersMap`, a map
from prototype objects to the ordered list of handlers registered for
them (modelled as an association list in insertion order). -/
structure Injector where
  id : Nat
  handlers : List (Nat × List HandlerObj)

/-- `handlers.get(prototype) || []`: the handler list stored under a
prototype key, empty when the key is absent. -/
def handlersAt (m : List (Nat × List HandlerObj)) (k : Nat) : List HandlerObj :=
  match m with
  | [] => []
  | (k', hs) :: rest => if k' = k then hs else handlersAt rest k

/-- One step of `addHandler`'s registration loop at a single prototype
key: fetch the list for the key (creating an empty one if absent) and
`unshift` the handler onto its front. -/
def addToKey (m : List (Nat × List HandlerObj)) (k : Nat) (h : HandlerObj) :
    List (Nat × List HandlerObj) :=
  match m with
  | [] => [(k, [h])]
  | (k', hs) :: rest => if k' = k then (k', h :: hs) :: rest else (k', hs) :: addToKey rest k h

/-- `Injector.addHandler(targetType, handler)`: for each prototype in
`targetType`'s chain (`forEachPrototype`, which walks from
`type.prototype` up to but excluding `Object.prototype`), prepend the
handler to that prototype's list. -/
def Injector.addHandler (st : Injector) (targetType : JSClass) (handler : HandlerObj) : Injector :=
  ⟨st.id, targetType.protoChain.foldl (fun m k => addToKey m k handler) st.handlers⟩

/-- `Injector.reset()`: `this.handlers.clear()` — unconditionally drops
every registered handler; the rich Injector keeps no `used` flags and
this method cannot fail. -/
def Injector.reset (st : Injector) : Injector :=
  ⟨st.id, []⟩

/-- `Injector.findCompatibleHandlers(type)`: throws when `type` is
null/undefined (the circular-module-dependency guard), otherwise returns
`handlers.get(type.prototype) || []` — lookup is by the type's own
prototype only, with no walk up the chain at resolve time.  A class with
an empty modelled chain has `type.prototype = Object.prototype`, a key
`addHandler` never populates, so the lookup yields `[]`. -/
def Injector.findCompatibleHandlers (st : Injector) (type? : Option JSClass) :
    Except String (List HandlerObj) :=
  match type? with
  | none => Except.error
      "Could not inject value since type is undefined. Do you have circular module dependencies?"
  | some t =>
    match t.protoChain.head? with
    | none => Except.ok []
    | some k => Except.ok (handlersAt st.handlers k)

/-- `Injector.passValue`: the identity unboxer used for non-primitive
target types. -/
def Injector.passValue (value : JSVal) : JSVal :=
  value

/-- `Injector.unboxValue`: `box !== null && box !== undefined ?
box.valueOf() : box`. -/
def Injector.unboxValue (box : JSVal) : JSVal :=
  if isEmptyVal box then box else box.valueOf

/-- `Injector.getUnboxer(type)`: `unboxValue` exactly when the target
type is the `Number`, `String` or `Boolean` constructor, otherwise
`passValue`. -/
def Injector.getUnboxer (type? : Option JSClass) : JSVal → JSVal :=
  match type? with
  | some t =>
    if t = NumberType ∨ t = StringType ∨ t = BooleanType then Injector.unboxValue
    else Injector.passValue
  | none => Injector.passValue

/-- The default injection request `{injector: this}` that `resolve`
builds when none is supplied. -/
def defaultInjection (st : Injector) : Injection :=
  ⟨none, none, none, none, none, st.id⟩

/-- The guard `injection && injection.injector !== this` at the top of
`resolve`. -/
def injectorMismatch (st : Injector) (injection? : Option Injection) : Bool :=
  match injection? with
  | some injection => injection.injector != st.id
  | none => false

/-- `resolve`'s handler loop: invoke each handler in list order on the
injection request, unbox its result, and return the first result that is
neither `null` nor `undefined`; `none` when every handler declined. -/
def firstDefined (unbox : JSVal → JSVal) (injection : Injection) :
    List HandlerObj → Option JSVal
  | [] => none
  | h :: rest =>
    let result := unbox (h injection)
    if isEmptyVal result then firstDefined unbox injection rest
    else some result

/-- The `type.name` interpolated into `resolve`'s error messages (the
`none` branch is unreachable there because `findCompatibleHandlers`
throws first on a missing type). -/
def optTypeName (type? : Option JSClass) : String :=
  match type? with
  | some t => t.name
  | none => "undefined"

/-- `Injector.resolve(type, injection?)`: throws on a foreign injection
request; throws the configuration error when the compatible handler list
is empty; otherwise runs the handlers in order through the type's
unboxer and returns the first non-null, non-undefined result, throwing
the exhaustion error when every handler declined. -/
def Injector.resolve (st : Injector) (type? : Option JSClass) (injection? : Option Injection) :
    Except String JSVal :=
  if injectorMismatch st injection? then
    Except.error "@inject belongs to a different injector"
  else
    match Injector.findCompatibleHandlers st type? with
    | Except.error e => Except.error e
    | Except.ok handlers =>
      if handlers.isEmpty then
        Except.error ("Could not inject value of type " ++ optTypeName type? ++
          " since no compatible injection handler exists for this type.")
      else
        match firstDefined (Injector.getUnboxer type?) (injection?.getD (defaultInjection st))
            handlers with
        | some result => Except.ok result
        | none => Except.error ("Could not inject value of type " ++ optTypeName type? ++
            " since no compatible injection handler returned a value.")

/-- One entry of the `ParamInfo` metadata array populated by `@inject`
on a constructor parameter: the declared parameter type (possibly
undefined under circular module dependencies), the optional string
literal of `@inject('x')`, and the injector the decorator belongs to. -/
structure ParamInfo where
  type : Option JSClass
  injectParam : Option String
  injector : Nat

/-- A class as consumed by `Injector.create`: its constructor identity
(`cls`), declared arity (`type.length`), the `ParamInfo` metadata array
attached by `@inject` (`none` when the class has no such metadata; array
slots without metadata are `none`), and the constructor body, which maps
the final argument list to the constructed value or throws. -/
structure CreatableClass where
  cls : JSClass
  arity : Nat
  paramInfo : Option (List (Option ParamInfo))
  ctorBody : List JSVal → Except String JSVal

/-- `getParamInfo(type)`: reads the `@inject` metadata attached to the
class, `none` when absent. -/
def getParamInfo (type : CreatableClass) : Option (List (Option ParamInfo)) :=
  type.paramInfo

/-- The metadata array `create` works with: `getParamInfo(type) || []`. -/
def paramInfoList (type : CreatableClass) : List (Option ParamInfo) :=
  (getParamInfo type).getD []

/-- `paramCount = Math.max(type.length, args.length, paramInfo.length)`:
the number of constructor arguments `create` supplies. -/
def paramCount (type : CreatableClass) (args : List JSVal) : Nat :=
  max type.arity (max args.length (paramInfoList type).length)

/-- The injection request `create` builds for an injected parameter at
index `i`: `{type, index: i, param: paramInfo[i].injectParam, injector:
paramInfo[i].injector}`. -/
def paramInjection (type : CreatableClass) (i : Nat) (info : ParamInfo) : Injection :=
  ⟨some type.cls, none, info.injectParam, none, some i, info.injector⟩

/-- The loop body of `create` over parameter indices: `finalArgs[i] =
args[i]` (undefined past the end of `args`), overridden by
`this.resolve(paramInfo[i].type, {type, index: i, param:
paramInfo[i].injectParam, injector: paramInfo[i].injector})` whenever
metadata exists at index `i`.  A resolution failure aborts the loop and
propagates. -/
def buildFinalArgs (st : Injector) (type : CreatableClass) (args : List JSVal)
    (paramInfo : List (Option ParamInfo)) : List Nat → Except String (List JSVal)
  | [] => Except.ok []
  | i :: rest =>
    let base := args.getD i JSVal.undef
    match paramInfo.getD i none with
    | none =>
      match buildFinalArgs st type args paramInfo rest with
      | Except.ok vs => Except.ok (base :: vs)
      | Except.error e => Except.error e
    | some info =>
      match Injector.resolve st info.type (some (paramInjection type i info)) with
      | Except.ok v =>
        match buildFinalArgs st type args paramInfo rest with
        | Except.ok vs => Except.ok (v :: vs)
        | Except.error e => Except.error e
      | Except.error e => Except.error e

/-- The guarded body of `create` (the `try` block): read the metadata,
compute `paramCount`, build the final argument list, and instantiate the
class with it. -/
def createBody (st : Injector) (type : CreatableClass) (args : List JSVal) :
    Except String JSVal :=
  match buildFinalArgs st type args (paramInfoList type) (List.range (paramCount type args)) with
  | Except.ok finalArgs => type.ctorBody finalArgs
  | Except.error e => Except.error e

/-- `Injector.create(type, args)`: throws `No type to create was given`
on a null/undefined type before the guarded block; otherwise runs the
guarded body and wraps any exception from it into
`Could not create instance of TYPE:\nMESSAGE`. -/
def Injector.create (st : Injector) (type? : Option CreatableClass) (args : List JSVal) :
    Except String JSVal :=
  match type? with
  | none => Except.error "No type to create was given"
  | some type =>
    match createBody st type args with
    | Except.ok v => Except.ok v
    | Except.error msg =>
      Except.error ("Could not create instance of " ++ type.cls.name ++ ":\n" ++ msg)

/-! ### The older `InjectionManager`

A registry keyed by the constructor itself (not its prototype chain),
with at most one handler per type, a `used` flag per entry, and guarded
teardown.  Its handlers take the optional `@inject('x')` parameter
string and may throw, so they return `Except`. -/

/-- `InjectionHandler<T>` of `InjectionManager`: a function from the
optional parameter string to a value; a thrown exception is
`Except.error`. -/
abbrev IMHandler := Option String → Except String JSVal

/-- A `HandlerEntry`: the handler plus the `used` flag. -/
structure HandlerEntry where
  handler : IMHandler
  used : Bool

/-- The `InjectionManager`'s state: a map from constructor to
`HandlerEntry`, modelled as an association list in insertion order. -/
structure InjectionManager where
  handlers : List (JSClass × HandlerEntry)

/-- `this.handlers.get(targetType)` on the `InjectionManager` map. -/
def entryAt (m : List (JSClass × HandlerEntry)) (t : JSClass) : Option HandlerEntry :=
  match m with
  | [] => none
  | (t', e) :: rest => if t' = t then some e else entryAt rest t

/-- `this.handlers.delete(targetType)` on the `InjectionManager` map. -/
def deleteKey (m : List (JSClass × HandlerEntry)) (t : JSClass) :
    List (JSClass × HandlerEntry) :=
  match m with
  | [] => []
  | (t', e) :: rest => if t' = t then rest else (t', e) :: deleteKey rest t

/-- Mark the entry stored under `t` as used (in-place mutation
`handlerEntry.used = true` rendered as a map update). -/
def markUsed (m : List (JSClass × HandlerEntry)) (t : JSClass) :
    List (JSClass × HandlerEntry) :=
  match m with
  | [] => []
  | (t', e) :: rest =>
    if t' = t then (t', ⟨e.handler, true⟩) :: rest else (t', e) :: markUsed rest t

/-- `InjectionManager.getHandler(targetType)`: the stored handler or
null. -/
def InjectionManager.getHandler (m : InjectionManager) (targetType : JSClass) :
    Option IMHandler :=
  match entryAt m.handlers targetType with
  | some e => some e.handler
  | none => none

/-- `InjectionManager.addHandler(targetType, handler)`: throws when a
handler for the exact type already exists, otherwise stores
`{handler, used: false}`. -/
def InjectionManager.addHandler (m : InjectionManager) (targetType : JSClass)
    (handler : IMHandler) : Except String InjectionManager :=
  match entryAt m.handlers targetType with
  | some _ =>
    Except.error ("InjectionManager already has a handler for " ++ targetType.name)
  | none => Except.ok ⟨m.handlers ++ [(targetType, ⟨handler, false⟩)]⟩

/-- `InjectionManager.removeHandler(targetType)`: throws when the entry
exists and is used (leaving the registry untouched), otherwise deletes
the entry (a no-op for an absent key). -/
def InjectionManager.removeHandler (m : InjectionManager) (targetType : JSClass) :
    Except String InjectionManager :=
  match entryAt m.handlers targetType with
  | some e =>
    if e.used then
      Except.error ("Can not remove InjectionHandler for type " ++ targetType.name ++
        " because it was already used.")
    else Except.ok ⟨deleteKey m.handlers targetType⟩
  | none => Except.ok ⟨deleteKey m.handlers targetType⟩

/-- `InjectionManager.clearHandlers()`: iterates the entries in
insertion order and throws at the first used one (leaving the registry
untouched); only when no entry is used does it clear the map. -/
def InjectionManager.clearHandlers (m : InjectionManager) : Except String InjectionManager :=
  match m.handlers.find? (fun e => e.2.used) with
  | some e =>
    Except.error ("Can not clear InjectionManager because InjectionHandler for type " ++
      e.1.name ++ " was already used.")
  | none => Except.ok ⟨[]⟩

/-- `InjectionManager.resolve(type, param)`: throws when no entry exists
for the type; otherwise sets the entry's `used` flag to `true` (before
the handler runs) and returns the handler's result — the flag mutation
persists even when the handler itself throws, so the call returns the
handler outcome paired with the updated registry state. -/
def InjectionManager.resolve (m : InjectionManager) (type : JSClass) (param : Option String) :
    Except String JSVal × InjectionManager :=
  match entryAt m.handlers type with
  | none =>
    (Except.error ("Can not inject value of type " ++ type.name ++
      " since no injection handler exists for this type."), m)
  | some e => (e.handler param, ⟨markUsed m.handlers type⟩)

/-! ### Helper definitions and lemmas -/

/-- The handler list `findCompatibleHandlers` returns for an actual
(non-null) type: the list stored under the type's own prototype. -/
def compatList (st : Injector) (t : JSClass) : List HandlerObj :=
  match t.protoChain.head? with
  | none => []
  | some k => handlersAt st.handlers k

/-- The configuration error message of `resolve` for a type name. -/
def cfgMsg (n : String) : String :=
  "Could not inject value of type " ++ n ++
    " since no compatible injection handler exists for this type."

/-- The exhaustion error message of `resolve` for a type name. -/
def exhMsg (n : String) : String :=
  "Could not inject value of type " ++ n ++
    " since no compatible injection handler returned a value."

theorem findCompatibleHandlers_some (st : Injector) (t : JSClass) :
    Injector.findCompatibleHandlers st (some t) = Except.ok (compatList st t) := by
  cases h : t.protoChain.head? <;>
    simp [Injector.findCompatibleHandlers, compatList, h]

theorem handlersAt_addToKey_self (m : List (Nat × List HandlerObj)) (k : Nat) (h : HandlerObj) :
    handlersAt (addToKey m k h) k = h :: handlersAt m k := by
  induction m with
  | nil => simp [addToKey, handlersAt]
  | cons kv rest ih =>
    obtain ⟨k', hs⟩ := kv
    by_cases hk : k' = k
    · simp [addToKey, handlersAt, hk]
    · simp [addToKey, handlersAt, hk, ih]

theorem handlersAt_addToKey_ne (m : List (Nat × List HandlerObj)) (k k' : Nat) (h : HandlerObj)
    (hne : k' ≠ k) :
    handlersAt (addToKey m k' h) k = handlersAt m k := by
  induction m with
  | nil => simp [addToKey, handlersAt, hne]
  | cons kv rest ih =>
    obtain ⟨k₀, hs⟩ := kv
    by_cases hk : k₀ = k'
    · subst hk
      simp [addToKey, handlersAt, hne]
    · by_cases hk2 : k₀ = k
      · subst hk2
        simp [addToKey, handlersAt, hk]
      · simp [addToKey, handlersAt, hk, hk2, ih]

theorem handlersAt_foldl_notMem (chain : List Nat) (m : List (Nat × List HandlerObj))
    (h : HandlerObj) (k : Nat) (hk : k ∉ chain) :
    handlersAt (chain.foldl (fun m' c => addToKey m' c h) m) k = handlersAt m k := by
  induction chain generalizing m with
  | nil => rfl
  | cons c rest ih =>
    simp only [List.foldl_cons]
    rw [ih (addToKey m c h) (fun hc => hk (List.mem_cons_of_mem _ hc))]
    exact handlersAt_addToKey_ne m k c h (fun hceq => hk (hceq ▸ List.mem_cons_self c rest))

theorem handlersAt_foldl_mem (chain : List Nat) (m : List (Nat × List HandlerObj))
    (h : HandlerObj) (k : Nat) (hnd : chain.Nodup) (hmem : k ∈ chain) :
    handlersAt (chain.foldl (fun m' c => addToKey m' c h) m) k = h :: handlersAt m k := by
  induction chain generalizing m with
  | nil => cases hmem
  | cons c rest ih =>
    simp only [List.foldl_cons]
    rcases List.mem_cons.mp hmem with hkc | hkrest
    · subst hkc
      rw [handlersAt_foldl_notMem rest _ h k (List.nodup_cons.mp hnd).1,
        handlersAt_addToKey_self]
    · have hne : c ≠ k := fun hceq => (List.nodup_cons.mp hnd).1 (hceq ▸ hkrest)
      rw [ih (addToKey m c h) (List.nodup_cons.mp hnd).2 hkrest,
        handlersAt_addToKey_ne m k c h hne]

theorem handlersAt_addHandler (st : Injector) (t : JSClass) (h : HandlerObj) (k : Nat)
    (hnd : t.protoChain.Nodup) (hmem : k ∈ t.protoChain) :
    handlersAt (Injector.addHandler st t h).handlers k = h :: handlersAt st.handlers k :=
  handlersAt_foldl_mem t.protoChain st.handlers h k hnd hmem

theorem isEmptyVal_valueOf (v : JSVal) : isEmptyVal v.valueOf = isEmptyVal v := by
  cases v <;> rfl

theorem isEmptyVal_unboxValue (v : JSVal) :
    isEmptyVal (Injector.unboxValue v) = isEmptyVal v := by
  cases hv : isEmptyVal v <;> simp [Injector.unboxValue, hv, isEmptyVal_valueOf]

theorem isEmptyVal_getUnboxer (type? : Option JSClass) (v : JSVal) :
    isEmptyVal (Injector.getUnboxer type? v) = isEmptyVal v := by
  unfold Injector.getUnboxer
  cases type? with
  | none => rfl
  | some t =>
    by_cases ht : t = NumberType ∨ t = StringType ∨ t = BooleanType <;>
      simp [ht, isEmptyVal_unboxValue, Injector.passValue]

theorem firstDefined_all_empty (unbox : JSVal → JSVal) (injection : Injection)
    (hs : List HandlerObj) (hemp : ∀ h ∈ hs, isEmptyVal (unbox (h injection)) = true) :
    firstDefined unbox injection hs = none := by
  induction hs with
  | nil => rfl
  | cons h rest ih =>
    simp only [firstDefined, hemp h (List.mem_cons_self h rest), if_true]
    exact ih (fun h' hh' => hemp h' (List.mem_cons_of_mem h hh'))

theorem firstDefined_first_nonempty (unbox : JSVal → JSVal) (injection : Injection)
    (pre : List HandlerObj) (h1 : HandlerObj) (post : List HandlerObj)
    (hpre : ∀ h ∈ pre, isEmptyVal (unbox (h injection)) = true)
    (h1ne : isEmptyVal (unbox (h1 injection)) = false) :
    firstDefined unbox injection (pre ++ h1 :: post) = some (unbox (h1 injection)) := by
  induction pre with
  | nil => simp [firstDefined, h1ne]
  | cons h rest ih =>
    simp only [List.cons_append, firstDefined, hpre h (List.mem_cons_self h rest), if_true]
    exact ih (fun h' hh' => hpre h' (List.mem_cons_of_mem h hh'))

theorem resolve_some_eq (st : Injector) (t : JSClass) (injection? : Option Injection)
    (hinj : injectorMismatch st injection? = false) :
    Injector.resolve st (some t) injection? =
      (if (compatList st t).isEmpty then Except.error (cfgMsg t.name)
       else
         match firstDefined (Injector.getUnboxer (some t)) (injection?.getD (defaultInjection st))
             (compatList st t) with
         | some result => Except.ok result
         | none => Except.error (exhMsg t.name)) := by
  unfold Injector.resolve
  rw [hinj, findCompatibleHandlers_some]
  simp [cfgMsg, exhMsg, optTypeName]

theorem entryAt_mem (m : List (JSClass × HandlerEntry)) (t : JSClass) (e : HandlerEntry)
    (h : entryAt m t = some e) : (t, e) ∈ m := by
  induction m with
  | nil => cases h
  | cons kv rest ih =>
    obtain ⟨t', e'⟩ := kv
    by_cases ht : t' = t
    · subst ht
      have h' : some e' = some e := by simpa [entryAt] using h
      cases h'
      exact List.mem_cons_self _ _
    · simp only [entryAt, if_neg ht] at h
      exact List.mem_cons_of_mem _ (ih h)

theorem entryAt_markUsed_self (m : List (JSClass × HandlerEntry)) (t : JSClass) :
    entryAt (markUsed m t) t = (entryAt m t).map (fun e => ⟨e.handler, true⟩) := by
  induction m with
  | nil => rfl
  | cons kv rest ih =>
    obtain ⟨t', e'⟩ := kv
    by_cases ht : t' = t
    · subst ht
      simp [markUsed, entryAt]
    · simp [markUsed, entryAt, ht, ih]

theorem entryAt_markUsed_ne (m : List (JSClass × HandlerEntry)) (t t' : JSClass)
    (hne : t' ≠ t) :
    entryAt (markUsed m t) t' = entryAt m t' := by
  induction m with
  | nil => rfl
  | cons kv rest ih =>
    obtain ⟨t₀, e₀⟩ := kv
    by_cases ht : t₀ = t
    · subst ht
      simp [markUsed, entryAt, Ne.symm hne]
    · by_cases ht2 : t₀ = t'
      · subst ht2
        simp [markUsed, entryAt, ht]
      · simp [markUsed, entryAt, ht, ht2, ih]

theorem cfgMsg_ne_exhMsg (n : String) : cfgMsg n ≠ exhMsg n := by
  intro h
  have hd := congrArg String.data h
  simp only [cfgMsg, exhMsg, String.data_append] at hd
  have htail := List.append_cancel_left hd
  exact absurd htail (by decide)

theorem buildFinalArgs_spec (st : Injector) (type : CreatableClass) (args : List JSVal)
    (paramInfo : List (Option ParamInfo)) (idxs : List Nat) (l : List JSVal)
    (hok : buildFinalArgs st type args paramInfo idxs = Except.ok l) :
    l.length = idxs.length ∧
    ∀ j, j < idxs.length →
      (paramInfo.getD (idxs.getD j 0) none = none →
        l.getD j JSVal.undef = args.getD (idxs.getD j 0) JSVal.undef) ∧
      ∀ info, paramInfo.getD (idxs.getD j 0) none = some info →
        Injector.resolve st info.type (some (paramInjection type (idxs.getD j 0) info))
          = Except.ok (l.getD j JSVal.undef) := by
  induction idxs generalizing l with
  | nil =>
    simp only [buildFinalArgs] at hok
    cases hok
    exact ⟨rfl, fun j hj => absurd hj (Nat.not_lt_zero j)⟩
  | cons i rest ih =>
    simp only [buildFinalArgs] at hok
    cases hpi : paramInfo.getD i none with
    | none =>
      simp only [hpi] at hok
      cases hrec : buildFinalArgs st type args paramInfo rest with
      | error e =>
        simp only [hrec] at hok
        cases hok
      | ok vs =>
        simp only [hrec] at hok
        cases hok
        obtain ⟨hlen, hrest⟩ := ih vs hrec
        refine ⟨by simp [hlen], fun j hj => ?_⟩
        cases j with
        | zero =>
          rw [show (i :: rest).getD 0 0 = i from rfl]
          refine ⟨fun _ => rfl, fun info hinfo => ?_⟩
          rw [hpi] at hinfo
          cases hinfo
        | succ j' =>
          have hj' : j' < rest.length := by simpa using hj
          simpa using hrest j' hj'
    | some info =>
      simp only [hpi] at hok
      cases hres : Injector.resolve st info.type (some (paramInjection type i info)) with
      | error e =>
        simp only [hres] at hok
        cases hok
      | ok v =>
        simp only [hres] at hok
        cases hrec : buildFinalArgs st type args paramInfo rest with
        | error e =>
          simp only [hrec] at hok
          cases hok
        | ok vs =>
          simp only [hrec] at hok
          cases hok
          obtain ⟨hlen, hrest⟩ := ih vs hrec
          refine ⟨by simp [hlen], fun j hj => ?_⟩
          cases j with
          | zero =>
            rw [show (i :: rest).getD 0 0 = i from rfl]
            refine ⟨fun hnone => ?_, fun info' hinfo' => ?_⟩
            · rw [hpi] at hnone
              cases hnone
            · rw [hpi] at hinfo'
              cases hinfo'
              exact hres
          | succ j' =>
            have hj' : j' < rest.length := by simpa using hj
            simpa using hrest j' hj'

theorem getD_range (n j : Nat) (hj : j < n) : (List.range n).getD j 0 = j := by
  rw [List.getD_eq_getElem?_getD, List.getElem?_range hj]
  rfl

/-! ### Claim theorems -/

/-- C1, counterexample: take `Base` with prototype chain `[10]` and
`Derived` with chain `[11, 10]` (so Derived's chain reaches Base's
prototype, shown by the first conjunct).  After `addHandler(Base, h)` on
a fresh Injector, `resolve(Derived)` does NOT find `h`:
`findCompatibleHandlers(Derived)` looks up Derived's own prototype `11`,
which `addHandler(Base, ·)` never populated (it registers up Base's
chain, away from subtypes), so `resolve` throws the no-handler
configuration error.  This refutes the claim that a handler registered
for a base type is discoverable when resolving subtypes. -/
theorem c1_counterexample :
    (⟨"Derived", [11, 10]⟩ : JSClass).protoChain
      = [11] ++ (⟨"Base", [10]⟩ : JSClass).protoChain
    ∧ Injector.findCompatibleHandlers
        (Injector.addHandler ⟨0, []⟩ ⟨"Base", [10]⟩ (fun _ => JSVal.obj 5))
        (some ⟨"Derived", [11, 10]⟩)
      = Except.ok []
    ∧ Injector.resolve
        (Injector.addHandler ⟨0, []⟩ ⟨"Base", [10]⟩ (fun _ => JSVal.obj 5))
        (some ⟨"Derived", [11, 10]⟩) none
      = Except.error (cfgMsg "Derived") :=
  ⟨rfl, rfl, rfl⟩

/-- C1, amended: the inheritance-aware registration runs in the opposite
direction.  `addHandler(T, h)` registers `h` for every prototype in
`T`'s own chain (excluding the root object prototype), so `h` becomes
discoverable when resolving any ANCESTOR type `anc` whose own prototype
lies in `T`'s chain — with `h` at the front of that ancestor's handler
list — and when `h`'s (unboxed) answer is defined, `resolve(anc)`
returns it.  Lookup at resolve time stays keyed by exact prototype. -/
theorem c1_amended (st : Injector) (t : JSClass) (h : HandlerObj) (anc : JSClass) (k : Nat)
    (hnd : t.protoChain.Nodup) (hk : anc.protoChain.head? = some k) (hmem : k ∈ t.protoChain)
    (hval : isEmptyVal (Injector.getUnboxer (some anc) (h (defaultInjection st))) = false) :
    compatList (Injector.addHandler st t h) anc = h :: handlersAt st.handlers k
    ∧ Injector.resolve (Injector.addHandler st t h) (some anc) none
      = Except.ok (Injector.getUnboxer (some anc) (h (defaultInjection st))) := by
  have hcompat : compatList (Injector.addHandler st t h) anc
      = h :: handlersAt st.handlers k := by
    unfold compatList
    rw [hk]
    exact handlersAt_addHandler st t h k hnd hmem
  refine ⟨hcompat, ?_⟩
  rw [resolve_some_eq (Injector.addHandler st t h) anc none rfl, hcompat]
  have hdef : (none : Option Injection).getD (defaultInjection (Injector.addHandler st t h))
      = defaultInjection st := rfl
  rw [hdef]
  have hfd := firstDefined_first_nonempty (Injector.getUnboxer (some anc))
    (defaultInjection st) [] h (handlersAt st.handlers k)
    (fun h' hh' => absurd hh' (List.not_mem_nil h')) hval
  rw [List.nil_append] at hfd
  rw [hfd]
  rfl

/-- C1 witness: instantiating the amended theorem at `Derived` with
chain `[11, 10]` and its ancestor `Base` with prototype `10`:
registering a handler for `Derived` makes `resolve(Base)` return its
value. -/
theorem c1_witness :
    Injector.resolve (Injector.addHandler ⟨0, []⟩ ⟨"Derived", [11, 10]⟩ (fun _ => JSVal.obj 5))
        (some ⟨"Base", [10]⟩) none
      = Except.ok (JSVal.obj 5) :=
  (c1_amended ⟨0, []⟩ ⟨"Derived", [11, 10]⟩ (fun _ => JSVal.obj 5) ⟨"Base", [10]⟩ 10
    (by decide) rfl (by decide) rfl).2

/-- C2, counterexample: the rich Injector's `reset` has no teardown
guard at all.  On an injector whose only handler IS successfully used
by a `resolve` call (first conjunct), `reset` still silently clears the
registry instead of failing (second conjunct) — the rich Injector keeps
no `used` flags, so `reset` cannot fail.  This refutes the conjunct of
the claim that says `reset` fails after a handler has been used. -/
theorem c2_counterexample :
    Injector.resolve (⟨0, [(20, [fun _ => JSVal.obj 7])]⟩ : Injector)
        (some ⟨"T", [20]⟩) none
      = Except.ok (JSVal.obj 7)
    ∧ Injector.reset ⟨0, [(20, [fun _ => JSVal.obj 7])]⟩ = (⟨0, []⟩ : Injector) :=
  ⟨rfl, rfl⟩

/-- C2, amended: the used-flag teardown guard exists only on the
`InjectionManager`.  There, when the entry targeted by `removeHandler`
has its `used` flag set, `removeHandler` fails with an error naming the
type, and `clearHandlers` fails with an error naming some used entry —
both returning the error without a new registry state, so the registry
is unchanged.  The rich Injector's `reset`, by contrast, tracks no used
flags and unconditionally clears every handler without failing. -/
theorem c2_amended (m : InjectionManager) (t : JSClass) (e : HandlerEntry) (st : Injector)
    (hl : entryAt m.handlers t = some e) (hu : e.used = true) :
    InjectionManager.removeHandler m t
      = Except.error ("Can not remove InjectionHandler for type " ++ t.name ++
          " because it was already used.")
    ∧ (∃ u, InjectionManager.clearHandlers m
        = Except.error ("Can not clear InjectionManager because InjectionHandler for type " ++
            u ++ " was already used."))
    ∧ Injector.reset st = ⟨st.id, []⟩ := by
  refine ⟨?_, ?_, rfl⟩
  · simp only [InjectionManager.removeHandler, hl, hu]
    rfl
  · have hmem := entryAt_mem m.handlers t e hl
    cases hfind : m.handlers.find? (fun x => x.2.used) with
    | none =>
      rw [List.find?_eq_none] at hfind
      exact absurd hu (by simpa using hfind (t, e) hmem)
    | some x =>
      refine ⟨x.1.name, ?_⟩
      simp only [InjectionManager.clearHandlers, hfind]

/-- C2 witness: a one-entry manager whose entry is used — both teardown
operations fail, while `reset` on an injector clears it. -/
theorem c2_witness :
    InjectionManager.removeHandler ⟨[(⟨"T", [20]⟩, ⟨fun _ => Except.ok JSVal.undef, true⟩)]⟩
        ⟨"T", [20]⟩
      = Except.error "Can not remove InjectionHandler for type T because it was already used."
    ∧ (∃ u, InjectionManager.clearHandlers
          ⟨[(⟨"T", [20]⟩, ⟨fun _ => Except.ok JSVal.undef, true⟩)]⟩
        = Except.error ("Can not clear InjectionManager because InjectionHandler for type " ++
            u ++ " was already used."))
    ∧ Injector.reset ⟨3, [(20, [fun _ => JSVal.obj 7])]⟩ = (⟨3, []⟩ : Injector) :=
  c2_amended ⟨[(⟨"T", [20]⟩, ⟨fun _ => Except.ok JSVal.undef, true⟩)]⟩ ⟨"T", [20]⟩
    ⟨fun _ => Except.ok JSVal.undef, true⟩ ⟨3, [(20, [fun _ => JSVal.obj 7])]⟩ rfl rfl

/-- C3, counterexample: the success clause of the claim says `resolve`
returns the first non-null, non-undefined HANDLER RESULT.  For the
primitive target `Number` with a handler returning the boxed number 5,
`resolve` returns the unboxed primitive 5, which differs from the
handler's own result (the boxed wrapper): the returned value is the
unboxing of the handler result, not the handler result itself. -/
theorem c3_counterexample :
    Injector.resolve (⟨0, [(0, [fun _ => JSVal.boxed (Prim.num 5)])]⟩ : Injector)
        (some NumberType) none
      = Except.ok (JSVal.prim (Prim.num 5))
    ∧ ((fun _ => JSVal.boxed (Prim.num 5) : HandlerObj)
        (defaultInjection ⟨0, [(0, [fun _ => JSVal.boxed (Prim.num 5)])]⟩))
      = JSVal.boxed (Prim.num 5)
    ∧ JSVal.prim (Prim.num 5) ≠ JSVal.boxed (Prim.num 5) :=
  ⟨rfl, rfl, fun h => JSVal.noConfusion h⟩

/-- C3, amended: `resolve(T)` distinguishes two failures by distinct
error messages, each naming `T`: an empty compatible-handler list gives
the configuration error, a non-empty list in which every handler
returns null/undefined gives the exhaustion error, and otherwise
`resolve` returns the UNBOXING of the first non-null, non-undefined
handler result (the identity unboxing for non-primitive targets). -/
theorem c3_amended (st : Injector) (t : JSClass) (injection? : Option Injection)
    (hinj : injectorMismatch st injection? = false) :
    (compatList st t = [] →
      Injector.resolve st (some t) injection? = Except.error (cfgMsg t.name))
    ∧ (compatList st t ≠ [] →
        (∀ h ∈ compatList st t,
          isEmptyVal (h (injection?.getD (defaultInjection st))) = true) →
        Injector.resolve st (some t) injection? = Except.error (exhMsg t.name))
    ∧ (∀ pre h1 post,
        compatList st t = pre ++ h1 :: post →
        (∀ h ∈ pre, isEmptyVal (h (injection?.getD (defaultInjection st))) = true) →
        isEmptyVal (h1 (injection?.getD (defaultInjection st))) = false →
        Injector.resolve st (some t) injection?
          = Except.ok (Injector.getUnboxer (some t)
              (h1 (injection?.getD (defaultInjection st)))))
    ∧ cfgMsg t.name ≠ exhMsg t.name := by
  refine ⟨?_, ?_, ?_, cfgMsg_ne_exhMsg t.name⟩
  · intro hempty
    rw [resolve_some_eq st t injection? hinj, hempty]
    rfl
  · intro hne hall
    obtain ⟨a, l, hc⟩ := List.exists_cons_of_ne_nil hne
    have hfd := firstDefined_all_empty (Injector.getUnboxer (some t))
      (injection?.getD (defaultInjection st)) (compatList st t)
      (fun h hh => by rw [isEmptyVal_getUnboxer]; exact hall h hh)
    rw [resolve_some_eq st t injection? hinj]
    rw [hc] at hfd ⊢
    rw [if_neg (by simp), hfd]
  · intro pre h1 post hc hpre h1ne
    have hfd := firstDefined_first_nonempty (Injector.getUnboxer (some t))
      (injection?.getD (defaultInjection st)) pre h1 post
      (fun h hh => by rw [isEmptyVal_getUnboxer]; exact hpre h hh)
      (by rw [isEmptyVal_getUnboxer]; exact h1ne)
    rw [resolve_some_eq st t injection? hinj, hc]
    have hni : (pre ++ h1 :: post).isEmpty = false := by
      cases pre <;> rfl
    rw [if_neg (by simp [hni]), hfd]

/-- C3 witness: on a fresh injector with no handlers, resolving an
unregistered type yields the configuration error naming it. -/
theorem c3_witness :
    Injector.resolve (⟨0, []⟩ : Injector) (some ⟨"Unregistered", [40]⟩) none
      = Except.error (cfgMsg "Unregistered") :=
  (c3_amended ⟨0, []⟩ ⟨"Unregistered", [40]⟩ none rfl).1 rfl

/-- C4: for a primitive target type (`Number`, `String`, `Boolean`), the
handler result is unboxed by `unboxValue` before the emptiness check, so
a handler returning a boxed (possibly falsy) primitive makes `resolve`
return the primitive value rather than throw; `unboxValue` preserves
emptiness exactly (only true null/undefined count as empty); and for
every non-primitive target the unboxer is the identity `passValue`. -/
theorem c4_primitive_unboxing (st : Injector) (t : JSClass) (p : Prim)
    (h : HandlerObj) (rest : List HandlerObj)
    (ht : t = NumberType ∨ t = StringType ∨ t = BooleanType)
    (hc : compatList st t = h :: rest)
    (hres : h (defaultInjection st) = JSVal.boxed p) :
    Injector.resolve st (some t) none = Except.ok (JSVal.prim p)
    ∧ (∀ v, isEmptyVal (Injector.unboxValue v) = isEmptyVal v)
    ∧ (∀ t', ¬(t' = NumberType ∨ t' = StringType ∨ t' = BooleanType) →
        Injector.getUnboxer (some t') = Injector.passValue)
    ∧ (∀ v, Injector.passValue v = v) := by
  have hunb : Injector.getUnboxer (some t) = Injector.unboxValue := by
    simp [Injector.getUnboxer, ht]
  refine ⟨?_, isEmptyVal_unboxValue, ?_, fun v => rfl⟩
  · rw [resolve_some_eq st t none rfl, hc, Option.getD_none]
    have h1ne : isEmptyVal (Injector.getUnboxer (some t) (h (defaultInjection st))) = false := by
      rw [hunb, hres]
      rfl
    have hfd := firstDefined_first_nonempty (Injector.getUnboxer (some t))
      (defaultInjection st) [] h rest (fun h' hh' => absurd hh' (List.not_mem_nil h')) h1ne
    rw [List.nil_append] at hfd
    rw [hfd, hunb, hres]
    rfl
  · intro t' ht'
    simp [Injector.getUnboxer, ht']

/-- C4 witness: a handler for `Boolean` returning the boxed falsy
`false` — `resolve` yields the primitive `false`, not an error. -/
theorem c4_witness :
    Injector.resolve (⟨0, [(2, [fun _ => JSVal.boxed (Prim.bool false)])]⟩ : Injector)
        (some BooleanType) none
      = Except.ok (JSVal.prim (Prim.bool false)) :=
  (c4_primitive_unboxing ⟨0, [(2, [fun _ => JSVal.boxed (Prim.bool false)])]⟩
    BooleanType (Prim.bool false) (fun _ => JSVal.boxed (Prim.bool false)) []
    (Or.inr (Or.inr rfl)) rfl rfl).1

/-- A class used to witness `create`'s behaviour: arity 3, parameter 2
marked `@inject` with declared type `Number`, constructor storing its
arguments as the instance's fields. -/
def c5Type : CreatableClass :=
  ⟨⟨"Ctor", [30]⟩, 3, some [none, none, some ⟨some NumberType, none, 0⟩],
    fun finalArgs => Except.ok (JSVal.inst "Ctor" finalArgs)⟩

/-- C5: when the final-argument computation of `create` succeeds with
list `l`, then at every parameter index below `paramCount`: an index
without `@inject` metadata receives the explicit argument unchanged
(undefined past the end), and an index with metadata receives exactly
the value resolved for its declared parameter type — overriding the
explicit argument; the constructor is then invoked with `l`, and its
successful result is returned by `create`. -/
theorem c5_explicit_argument_precedence (st : Injector) (type : CreatableClass)
    (args : List JSVal) (l : List JSVal)
    (hok : buildFinalArgs st type args (paramInfoList type)
        (List.range (paramCount type args)) = Except.ok l)
    (i : Nat) (hi : i < paramCount type args) :
    ((paramInfoList type).getD i none = none →
      l.getD i JSVal.undef = args.getD i JSVal.undef)
    ∧ (∀ info, (paramInfoList type).getD i none = some info →
        Injector.resolve st info.type (some (paramInjection type i info))
          = Except.ok (l.getD i JSVal.undef))
    ∧ createBody st type args = type.ctorBody l
    ∧ (∀ v, type.ctorBody l = Except.ok v →
        Injector.create st (some type) args = Except.ok v) := by
  obtain ⟨hlen, hspec⟩ := buildFinalArgs_spec st type args (paramInfoList type)
    (List.range (paramCount type args)) l hok
  have hi' : i < (List.range (paramCount type args)).length := by simpa using hi
  have hidx := getD_range (paramCount type args) i hi
  obtain ⟨h1, h2⟩ := hspec i hi'
  rw [hidx] at h1 h2
  refine ⟨h1, h2, ?_, ?_⟩
  · simp only [createBody, hok]
  · intro v hv
    simp only [Injector.create, createBody, hok, hv]

/-- C5 witness: creating `c5Type` with explicit arguments at all three
positions on an injector whose `Number` handler returns 44 — the
explicit values survive at the non-injected indices 0 and 1, while the
injected index 2 receives 44, overriding the explicit argument. -/
theorem c5_witness :
    Injector.create ⟨0, [(0, [fun _ => JSVal.prim (Prim.num 44)])]⟩ (some c5Type)
        [JSVal.obj 1, JSVal.obj 2, JSVal.obj 3]
      = Except.ok (JSVal.inst "Ctor" [JSVal.obj 1, JSVal.obj 2, JSVal.prim (Prim.num 44)]) :=
  (c5_explicit_argument_precedence ⟨0, [(0, [fun _ => JSVal.prim (Prim.num 44)])]⟩ c5Type
    [JSVal.obj 1, JSVal.obj 2, JSVal.obj 3]
    [JSVal.obj 1, JSVal.obj 2, JSVal.prim (Prim.num 44)] rfl 2 (by decide)).2.2.2
    (JSVal.inst "Ctor" [JSVal.obj 1, JSVal.obj 2, JSVal.prim (Prim.num 44)]) rfl

/-- C6: for the same type `t`, registering `h1` then `h2` puts `h2` in
front of `h1` in `t`'s handler list (`unshift`, last-registered-first),
and `resolve` runs the list in order, so with `h1` returning
null/undefined and `h2`'s unboxed result defined, `resolve` returns
`h2`'s (unboxed) value. -/
theorem c6_registration_order (st : Injector) (t : JSClass) (h1 h2 : HandlerObj) (k : Nat)
    (hk : t.protoChain.head? = some k) (hnd : t.protoChain.Nodup)
    (_he1 : isEmptyVal (h1 (defaultInjection st)) = true)
    (hne2 : isEmptyVal (Injector.getUnboxer (some t) (h2 (defaultInjection st))) = false) :
    compatList (Injector.addHandler (Injector.addHandler st t h1) t h2) t
      = h2 :: h1 :: handlersAt st.handlers k
    ∧ Injector.resolve (Injector.addHandler (Injector.addHandler st t h1) t h2) (some t) none
      = Except.ok (Injector.getUnboxer (some t) (h2 (defaultInjection st))) := by
  have hmem : k ∈ t.protoChain := List.mem_of_mem_head? hk
  have hca : compatList (Injector.addHandler (Injector.addHandler st t h1) t h2) t
      = h2 :: h1 :: handlersAt st.handlers k := by
    unfold compatList
    rw [hk]
    show handlersAt (Injector.addHandler (Injector.addHandler st t h1) t h2).handlers k
      = h2 :: h1 :: handlersAt st.handlers k
    rw [handlersAt_addHandler (Injector.addHandler st t h1) t h2 k hnd hmem,
      handlersAt_addHandler st t h1 k hnd hmem]
  refine ⟨hca, ?_⟩
  rw [resolve_some_eq (Injector.addHandler (Injector.addHandler st t h1) t h2) t none rfl, hca]
  have hdef : (none : Option Injection).getD
      (defaultInjection (Injector.addHandler (Injector.addHandler st t h1) t h2))
      = defaultInjection st := rfl
  rw [hdef]
  have hfd := firstDefined_first_nonempty (Injector.getUnboxer (some t))
    (defaultInjection st) [] h2 (h1 :: handlersAt st.handlers k)
    (fun h' hh' => absurd hh' (List.not_mem_nil h')) hne2
  rw [List.nil_append] at hfd
  rw [hfd]
  rfl

/-- C6 witness: `h1` (returns null) registered before `h2` (returns
object 7) for the same type — `resolve` returns 7. -/
theorem c6_witness :
    Injector.resolve
        (Injector.addHandler (Injector.addHandler ⟨0, []⟩ ⟨"T", [20]⟩ (fun _ => JSVal.null))
          ⟨"T", [20]⟩ (fun _ => JSVal.obj 7))
        (some ⟨"T", [20]⟩) none
      = Except.ok (JSVal.obj 7) :=
  (c6_registration_order ⟨0, []⟩ ⟨"T", [20]⟩ (fun _ => JSVal.null) (fun _ => JSVal.obj 7) 20
    rfl (by decide) rfl rfl).2

/-- A plain class with arity 2, no metadata, used to witness the
argument count of `create`. -/
def c7Plain : CreatableClass :=
  ⟨⟨"Plain", [32]⟩, 2, none, fun finalArgs => Except.ok (JSVal.inst "Plain" finalArgs)⟩

/-- A class whose constructor throws, used to witness `create`'s error
wrapping. -/
def c7Bad : CreatableClass :=
  ⟨⟨"Bad", [31]⟩, 0, none, fun _ => Except.error "boom"⟩

/-- C7: `create` supplies exactly
`max(declared arity, explicit args length, metadata length)` constructor
arguments, and wraps any exception thrown inside the guarded block
(metadata-driven resolution or instantiation) into a single error naming
the created type and containing the original message. -/
theorem c7_arity_and_wrapping (st : Injector) (type : CreatableClass) (args : List JSVal) :
    (∀ l, buildFinalArgs st type args (paramInfoList type)
        (List.range (paramCount type args)) = Except.ok l →
      l.length = max type.arity (max args.length (paramInfoList type).length)
      ∧ createBody st type args = type.ctorBody l)
    ∧ (∀ m, createBody st type args = Except.error m →
        Injector.create st (some type) args
          = Except.error ("Could not create instance of " ++ type.cls.name ++ ":\n" ++ m)) := by
  constructor
  · intro l hok
    obtain ⟨hlen, _⟩ := buildFinalArgs_spec st type args (paramInfoList type) _ l hok
    refine ⟨by simpa [paramCount] using hlen, ?_⟩
    simp only [createBody, hok]
  · intro m hm
    simp only [Injector.create, hm]

/-- C7 witness: a two-parameter class called with no explicit arguments
receives exactly two (undefined) arguments, and a throwing constructor's
message is wrapped with the type name. -/
theorem c7_witness :
    (([JSVal.undef, JSVal.undef] : List JSVal).length
      = max c7Plain.arity (max ([] : List JSVal).length (paramInfoList c7Plain).length))
    ∧ Injector.create ⟨0, []⟩ (some c7Bad) []
      = Except.error "Could not create instance of Bad:\nboom" :=
  ⟨((c7_arity_and_wrapping ⟨0, []⟩ c7Plain []).1 [JSVal.undef, JSVal.undef] rfl).1,
    (c7_arity_and_wrapping ⟨0, []⟩ c7Bad []).2 "boom" rfl⟩

/-- C8: an injection request whose `injector` field is a different
injector instance makes `resolve` throw the cross-injector error
immediately, for every registry state and target type — no handler is
consulted. -/
theorem c8_cross_injector_guard (st : Injector) (type? : Option JSClass)
    (injection : Injection) (hne : injection.injector ≠ st.id) :
    Injector.resolve st type? (some injection)
      = Except.error "@inject belongs to a different injector" := by
  have hmm : injectorMismatch st (some injection) = true := by
    simp [injectorMismatch, hne]
  unfold Injector.resolve
  rw [hmm]
  rfl

/-- C8 witness: an injector with id 0 holding a perfectly good handler
still rejects a request stamped with injector id 1. -/
theorem c8_witness :
    Injector.resolve (⟨0, [(20, [fun _ => JSVal.obj 7])]⟩ : Injector)
        (some ⟨"T", [20]⟩) (some ⟨none, none, none, none, none, 1⟩)
      = Except.error "@inject belongs to a different injector" :=
  c8_cross_injector_guard ⟨0, [(20, [fun _ => JSVal.obj 7])]⟩ (some ⟨"T", [20]⟩)
    ⟨none, none, none, none, none, 1⟩ (by decide)

/-- C9, counterexample: `InjectionManager.resolve` sets the entry's
`used` flag BEFORE invoking the handler.  With a handler that throws,
the resolution fails (first conjunct) yet the registry's single entry
ends up marked used (second conjunct) — refuting the claim that a
failing resolve leaves the `used` flag unchanged. -/
theorem c9_counterexample :
    (InjectionManager.resolve ⟨[(⟨"T", [20]⟩, ⟨fun _ => Except.error "boom", false⟩)]⟩
        ⟨"T", [20]⟩ none).1 = Except.error "boom"
    ∧ ((InjectionManager.resolve ⟨[(⟨"T", [20]⟩, ⟨fun _ => Except.error "boom", false⟩)]⟩
        ⟨"T", [20]⟩ none).2.handlers.map (fun e => e.2.used)) = [true] :=
  ⟨rfl, rfl⟩

/-- C9, amended: the `used` flag is set to `true` on EVERY `resolve`
call that finds a handler entry for the type, before the handler runs —
even when the handler throws or returns no value — while other entries
are untouched; only a `resolve` on an unregistered type (which throws
the no-handler error) leaves the registry unchanged. -/
theorem c9_amended (m : InjectionManager) (t : JSClass) (param : Option String) :
    (∀ e, entryAt m.handlers t = some e →
      (InjectionManager.resolve m t param).1 = e.handler param
      ∧ entryAt (InjectionManager.resolve m t param).2.handlers t = some ⟨e.handler, true⟩
      ∧ ∀ t', t' ≠ t →
          entryAt (InjectionManager.resolve m t param).2.handlers t'
            = entryAt m.handlers t')
    ∧ (entryAt m.handlers t = none →
        InjectionManager.resolve m t param
          = (Except.error ("Can not inject value of type " ++ t.name ++
              " since no injection handler exists for this type."), m)) := by
  constructor
  · intro e he
    refine ⟨?_, ?_, ?_⟩
    · simp only [InjectionManager.resolve, he]
    · simp only [InjectionManager.resolve, he]
      rw [entryAt_markUsed_self, he]
      rfl
    · intro t' ht'
      simp only [InjectionManager.resolve, he]
      exact entryAt_markUsed_ne m.handlers t t' ht'
  · intro hnone
    simp only [InjectionManager.resolve, hnone]

/-- C9 witness: resolving through a throwing handler still flips the
entry's `used` flag to true. -/
theorem c9_witness :
    entryAt (InjectionManager.resolve
        ⟨[(⟨"U", [21]⟩, ⟨fun _ => Except.error "down", false⟩)]⟩ ⟨"U", [21]⟩ none).2.handlers
      ⟨"U", [21]⟩
      = some ⟨fun _ => Except.error "down", true⟩ :=
  ((c9_amended ⟨[(⟨"U", [21]⟩, ⟨fun _ => Except.error "down", false⟩)]⟩ ⟨"U", [21]⟩ none).1
    ⟨fun _ => Except.error "down", false⟩ rfl).2.1

/-- C10: `create` with a null/undefined type throws exactly
`No type to create was given`, and this message is not in the wrapped
`Could not create instance of ...` format (the null check precedes the
guarded construction block). -/
theorem c10_no_type_given (st : Injector) (args : List JSVal) :
    Injector.create st none args = Except.error "No type to create was given"
    ∧ String.isPrefixOf "Could not create instance of " "No type to create was given" = false :=
  ⟨rfl, by decide⟩

end TabrisDI
